import Mathlib

/-!
Verification of the wallet core (address discovery, transaction sync,
input selection, transfer building, and the secure-vault actor protocol).

The Lean definitions below are shallow embeddings of the Rust source:

* `sync_addresses` embeds `sync_addresses` from `src/account/sync/mod.rs`,
  with the ledger client (`get_transactions`, `get_addresses_balance`)
  and the address derivation function passed in as oracles, and an explicit
  fuel parameter standing for the number of loop iterations the unbounded
  Rust `loop` is allowed to run (`none` means the loop has not terminated
  within the given fuel).
* `sync_transactions`, `newMessageIds` and `syncOnce` embed
  `sync_transactions` and the new-id filtering of
  `AccountSynchronizer::execute`.
* `select_inputs` embeds `SyncedAccount::select_inputs`; the pluggable
  coin-selection strategy (`input_selection::select_input`, whose source
  file is not part of this tree) is a function parameter.
* `buildOutputs` and `transfer` embed the output-allocation loop and the
  orchestration of `SyncedAccount::transfer`, with every storage, network
  and vault collaborator an oracle and an explicit trace of the effectful
  calls made.
* `account_id_to_record_id`, `receive_message` and `remove_account` embed
  the corresponding items of `src/stronghold.rs`.

Machine integers (`u64`, `usize`) are modelled as `Nat`; the only u64
subtraction performed by the embedded code is modelled by `u64Sub`, which
makes the debug-mode underflow panic explicit.  Rust panics
(`unwrap`/`expect`/out-of-bounds slicing/`unimplemented`) are modelled by
the `Outcome.panic` constructor.
-/

/-- Outcome of running a piece of Rust code: a value, an error of the
relevant error type, or a panic (`unwrap` on `None`, slice out of bounds,
arithmetic underflow in debug mode, `unimplemented`). -/
inductive Outcome (ε : Type) (α : Type) where
  | ok : α → Outcome ε α
  | err : ε → Outcome ε α
  | panic : Outcome ε α
deriving DecidableEq

/-- Address record of the wallet (`Address` in `src/address.rs`): the
ledger address value, the balance and the derivation key index.  The
`checksum` field of the Rust struct is a derived pure function of the
address value and carries no information used by any claim, so it is
omitted.  Address values are abstracted to `Nat`. -/
structure Address where
  addr : Nat
  balance : Nat
  keyIndex : Nat
deriving DecidableEq

/-- Equality as implemented by `PartialEq for Address`: only the address
values are compared, never balance or key index. -/
def addressEq (a b : Address) : Bool :=
  a.addr == b.addr

/-- Entry of the `get_addresses_balance` response: an address and the
amount of one output on it. -/
structure AddrOutput where
  address : Nat
  amount : Nat
deriving DecidableEq

/-- Ledger-client oracle used by `sync_addresses`: `txsFor` models
`client.get_transactions().addresses(..)` (transactions are abstracted to
`Nat` identifiers) and `balancesFor` models
`client.get_addresses_balance(..)`. -/
structure ScanLedger where
  txsFor : List Nat → List Nat
  balancesFor : List Nat → List AddrOutput

/-- Addresses generated for one batch: for every derivation index `i` in
`[startIndex, startIndex + gapLimit)`, both the public and the internal
(change) address, in that order (the `for i in address_index..` loop of
`sync_addresses`).  `gen i internal` models
`crate::address::get_iota_address(&account, i, internal)`. -/
def genBatch (gen : Nat → Bool → Nat) (startIndex gapLimit : Nat) : List Nat :=
  (List.range gapLimit).flatMap (fun k => [gen (startIndex + k) false, gen (startIndex + k) true])

/-- Balance of one generated address: the sum of the amounts of the
returned outputs whose address matches (the `filter` / `fold` in
`sync_addresses`). -/
def balanceOf (outputs : List AddrOutput) (a : Nat) : Nat :=
  (outputs.filter (fun o => o.address == a)).foldl (fun acc o => acc + o.amount) 0

/-- Address records built for one batch (the
`for iota_address in generated_iota_addresses` loop): each generated
address is recorded with the current value of the mutable `address_index`
as its key index, and `address_index` is incremented once per generated
address (hence twice per derivation index). -/
def buildBatchAddresses (outputs : List AddrOutput) : List Nat → Nat → List Address
  | [], _ => []
  | a :: rest, addressIndex =>
    ⟨a, balanceOf outputs a, addressIndex⟩ :: buildBatchAddresses outputs rest (addressIndex + 1)

/-- Main loop of `sync_addresses`.  State: remaining fuel, the mutable
`address_index`, the accumulated `generated_addresses` and the accumulated
`found_transactions`.  The loop breaks exactly when the accumulated
transaction list is empty and every output of the current batch has zero
amount; `none` means the fuel ran out before the Rust loop broke. -/
def sync_addresses_loop (L : ScanLedger) (gen : Nat → Bool → Nat) (gapLimit : Nat) :
    Nat → Nat → List Address → List Nat → Option (List Address × List Nat)
  | 0, _, _, _ => none
  | fuel + 1, addressIndex, generatedAddresses, foundTransactions =>
    let generatedIotaAddresses := genBatch gen addressIndex gapLimit
    let foundTransactions2 := foundTransactions ++ L.txsFor generatedIotaAddresses
    let outputs := L.balancesFor generatedIotaAddresses
    let generatedAddresses2 :=
      generatedAddresses ++ buildBatchAddresses outputs generatedIotaAddresses addressIndex
    let addressIndex2 := addressIndex + generatedIotaAddresses.length
    if foundTransactions2.isEmpty && outputs.all (fun o => o.amount == 0) then
      some (generatedAddresses2, foundTransactions2)
    else
      sync_addresses_loop L gen gapLimit fuel addressIndex2 generatedAddresses2 foundTransactions2

/-- Embedding of `sync_addresses` from `src/account/sync/mod.rs`, starting
from the given address index with the given gap limit. -/
def sync_addresses (L : ScanLedger) (gen : Nat → Bool → Nat)
    (addressIndex gapLimit fuel : Nat) : Option (List Address × List Nat) :=
  sync_addresses_loop L gen gapLimit fuel addressIndex [] []

/-- Concrete address derivation used in the discovery counterexample:
index `i` yields public address `2 * i` and internal address `2 * i + 1`. -/
def c1Gen (i : Nat) (internal : Bool) : Nat :=
  2 * i + (if internal then 1 else 0)

/-- Concrete ledger for the discovery counterexample: exactly one
transaction (id 100) touches the public address of derivation index 0, and
every address balance is zero. -/
def c1Ledger : ScanLedger where
  txsFor := fun addrs => if addrs.contains 0 then [100] else []
  balancesFor := fun _ => []

theorem sync_addresses_loop_of_ne_nil (L : ScanLedger) (gen : Nat → Bool → Nat)
    (g : Nat) (fuel idx : Nat) (accs : List Address) (ft : List Nat) (hft : ft ≠ []) :
    sync_addresses_loop L gen g fuel idx accs ft = none := by
  induction fuel generalizing idx accs ft with
  | zero => rfl
  | succ n ih =>
    have hne : (ft ++ L.txsFor (genBatch gen idx g)).isEmpty = false := by
      cases ft with
      | nil => exact absurd rfl hft
      | cons a l => rfl
    simp only [sync_addresses_loop, hne, Bool.false_and, if_neg Bool.false_ne_true]
    exact ih _ _ _ (by
      cases ft with
      | nil => exact absurd rfl hft
      | cons a l => simp)

/-- C1: for every fuel bound, the address scan with gap limit 1 starting
at index 0 against `c1Ledger` has not terminated: once the first batch
found a transaction, the break condition tests the *accumulated*
`found_transactions` list, which can never become empty again, so the scan
never stops (and each iteration advances the index by `2 * g`, two
generated addresses per derivation index, rather than by `g`). -/
theorem sync_addresses_diverges_on_used_account (fuel : Nat) :
    sync_addresses c1Ledger c1Gen 0 1 fuel = none := by
  cases fuel with
  | zero => rfl
  | succ n =>
    show sync_addresses_loop c1Ledger c1Gen 1 (n + 1) 0 [] [] = none
    have hstep : sync_addresses_loop c1Ledger c1Gen 1 (n + 1) 0 [] [] =
        sync_addresses_loop c1Ledger c1Gen 1 n 2
          (buildBatchAddresses [] (genBatch c1Gen 0 1) 0) [100] := by
      rfl
    rw [hstep]
    exact sync_addresses_loop_of_ne_nil _ _ _ _ _ _ _ (by simp)

/-- Wallet transaction record (`Message` in `crate::message`): the
identifier, the `broadcasted` flag and the `confirmed` flag.  The payload
carries no information used by any claim and is omitted. -/
structure Message where
  msgId : Nat
  broadcasted : Bool
  confirmed : Bool
deriving DecidableEq

/-- Ledger message as returned by the client (`IotaMessage`): its own
identifier (hash) and its structural trunk reference. -/
structure IotaMessage where
  hash : Nat
  trunk : Nat
deriving DecidableEq

/-- Fixed ledger state seen by the transaction sync: `found` is the list
of messages discovered by the address scan, `msgs` is the set of messages
retrievable by hash, and `conf` is the confirmation state per identifier
(`client.is_confirmed`). -/
structure Ledger where
  found : List IotaMessage
  msgs : List IotaMessage
  conf : Nat → Bool

/-- Modelled from the spec: `Message::from_iota_message` is not part of
this tree; per the data model a `Message` is created when first observed,
carrying the ledger message identifier with both lifecycle flags false. -/
def fromIotaMessage (m : IotaMessage) : Message :=
  ⟨m.hash, false, false⟩

/-- Broadcasted-state step of `sync_transactions`: a message that is not
yet broadcasted and whose id appears in the freshly discovered id set is
marked broadcasted. -/
def broadcastStep (newIds : List Nat) (m : Message) : Message :=
  if !m.broadcasted && newIds.contains m.msgId then
    { m with broadcasted := true }
  else
    m

/-- Confirmed-state step of `sync_transactions`: a message that is not yet
confirmed and that the ledger reports confirmed is marked confirmed.  The
Rust code zips the unconfirmed messages with the values of the returned
`HashMap`; the embedding determinizes that zip by aligning each message
with the confirmation state of its own identifier. -/
def confirmStep (L : Ledger) (m : Message) : Message :=
  if !m.confirmed && L.conf m.msgId then
    { m with confirmed := true }
  else
    m

/-- Fetch of full message bodies by identifier
(`client.get_transactions().hashes(..)`): one lookup per requested hash,
absent hashes contributing nothing. -/
def getByHashes (L : Ledger) (hashes : List Nat) : List IotaMessage :=
  hashes.filterMap (fun h => L.msgs.find? (fun m => m.hash == h))

/-- Embedding of `sync_transactions` from `src/account/sync/mod.rs`: mark
broadcasted, mark confirmed, then append one new `Message` per fetched
body.  The `ids_iter` binding of the Rust loop is dead (the bound
`message_id` is never used), so it is not modelled. -/
def sync_transactions (L : Ledger) (msgs : List Message) (newIds : List Nat) : List Message :=
  (msgs.map (broadcastStep newIds)).map (confirmStep L)
    ++ (getByHashes L newIds).map fromIotaMessage

/-- New-id filtering of `AccountSynchronizer::execute`: the trunk of every
found message is considered new unless some local message carries it as
its identifier. -/
def newMessageIds (msgs : List Message) (found : List IotaMessage) : List Nat :=
  (found.filter (fun f => !(msgs.any (fun m => m.msgId == f.trunk)))).map (fun f => f.trunk)

/-- One run of the transaction-sync reconciliation of
`AccountSynchronizer::execute` over a fixed ledger state: compute the new
id set from the current messages and the found messages, then run
`sync_transactions`.  The Rust call site names the argument
`new_message_hashes`, an undeclared variable; following the spec the
just-computed discovered id set is passed. -/
def syncOnce (L : Ledger) (msgs : List Message) : List Message :=
  sync_transactions L msgs (newMessageIds msgs L.found)

theorem broadcastStep_msgId (ids : List Nat) (m : Message) :
    (broadcastStep ids m).msgId = m.msgId := by
  unfold broadcastStep
  split <;> rfl

theorem confirmStep_msgId (L : Ledger) (m : Message) :
    (confirmStep L m).msgId = m.msgId := by
  unfold confirmStep
  split <;> rfl

theorem broadcastStep_confirmed (ids : List Nat) (m : Message) :
    (broadcastStep ids m).confirmed = m.confirmed := by
  unfold broadcastStep
  split <;> rfl

theorem confirmStep_broadcasted (L : Ledger) (m : Message) :
    (confirmStep L m).broadcasted = m.broadcasted := by
  unfold confirmStep
  split <;> rfl

theorem broadcastStep_mono (ids : List Nat) (m : Message) (h : m.broadcasted = true) :
    (broadcastStep ids m).broadcasted = true := by
  simp [broadcastStep, h]

theorem confirmStep_mono (L : Ledger) (m : Message) (h : m.confirmed = true) :
    (confirmStep L m).confirmed = true := by
  simp [confirmStep, h]

/-- C7: the `broadcasted` and `confirmed` flags are monotonic across a
sync run: every message of the account keeps its position and identifier,
and a flag that was true before the run is still true after it. -/
theorem sync_transactions_flags_monotone (L : Ledger) (msgs : List Message)
    (ids : List Nat) (i : Nat) (m : Message) (h : msgs[i]? = some m) :
    ∃ m2, (sync_transactions L msgs ids)[i]? = some m2 ∧
      m2.msgId = m.msgId ∧
      (m.broadcasted = true → m2.broadcasted = true) ∧
      (m.confirmed = true → m2.confirmed = true) := by
  refine ⟨confirmStep L (broadcastStep ids m), ?_, ?_, ?_, ?_⟩
  · have hi : i < ((msgs.map (broadcastStep ids)).map (confirmStep L)).length := by
      simp only [List.length_map]
      exact (List.getElem?_eq_some.mp h).1
    rw [sync_transactions, List.getElem?_append, if_pos hi]
    simp [h]
  · rw [confirmStep_msgId, broadcastStep_msgId]
  · intro hb
    rw [confirmStep_broadcasted]
    exact broadcastStep_mono ids m hb
  · intro hc
    exact confirmStep_mono L _ (by rw [broadcastStep_confirmed]; exact hc)

/-- Concrete ledger used by the monotonicity witness. -/
def c7Ledger : Ledger where
  found := []
  msgs := []
  conf := fun _ => false

theorem sync_transactions_flags_monotone_witness :
    ([(⟨7, true, false⟩ : Message)][0]? = some (⟨7, true, false⟩ : Message)) ∧
      (∃ m2, (sync_transactions c7Ledger [⟨7, true, false⟩] [])[0]? = some m2 ∧
        m2.msgId = (7 : Nat) ∧
        (true = true → m2.broadcasted = true) ∧
        (false = true → m2.confirmed = true)) :=
  ⟨rfl, sync_transactions_flags_monotone c7Ledger [⟨7, true, false⟩] [] 0 ⟨7, true, false⟩ rfl⟩

theorem mem_newMessageIds (msgs : List Message) (found : List IotaMessage) (t : Nat)
    (h : t ∈ newMessageIds msgs found) :
    ∃ f ∈ found, f.trunk = t ∧ msgs.any (fun m => m.msgId == f.trunk) = false := by
  unfold newMessageIds at h
  obtain ⟨f, hf, hft⟩ := List.mem_map.mp h
  obtain ⟨hmem, hp⟩ := List.mem_filter.mp hf
  exact ⟨f, hmem, hft, by simpa using hp⟩

theorem newMessageIds_mem (msgs : List Message) (found : List IotaMessage)
    (f : IotaMessage) (hmem : f ∈ found)
    (hnone : msgs.any (fun m => m.msgId == f.trunk) = false) :
    f.trunk ∈ newMessageIds msgs found := by
  unfold newMessageIds
  exact List.mem_map.mpr ⟨f, List.mem_filter.mpr ⟨hmem, by simpa using hnone⟩, rfl⟩

theorem msgId_mem_syncOnce (L : Ledger) (s : List Message) (m : Message) (hm : m ∈ s) :
    ∃ m2 ∈ syncOnce L s, m2.msgId = m.msgId := by
  refine ⟨confirmStep L (broadcastStep (newMessageIds s L.found) m), ?_, ?_⟩
  · unfold syncOnce sync_transactions
    exact List.mem_append_left _ (List.mem_map.mpr
      ⟨broadcastStep (newMessageIds s L.found) m, List.mem_map.mpr ⟨m, hm, rfl⟩, rfl⟩)
  · rw [confirmStep_msgId, broadcastStep_msgId]

theorem newMessageIds_syncOnce_fresh (L : Ledger) (s : List Message) (t : Nat)
    (ht : t ∈ newMessageIds (syncOnce L s) L.found) :
    ∀ m ∈ syncOnce L s, m.msgId ≠ t := by
  obtain ⟨f, _, hft, hnone⟩ := mem_newMessageIds _ _ _ ht
  intro m hm heq
  have := (List.any_eq_false.mp hnone) m hm
  rw [hft] at this
  exact this (by simpa using heq)

theorem getByHashes_syncOnce_nil (L : Ledger) (s : List Message) :
    getByHashes L (newMessageIds (syncOnce L s) L.found) = [] := by
  rw [getByHashes, List.filterMap_eq_nil_iff]
  intro t ht
  cases hfind : L.msgs.find? (fun m => m.hash == t) with
  | none => rfl
  | some im =>
    exfalso
    have hhash : im.hash = t := by simpa using List.find?_some hfind
    obtain ⟨f, hfmem, hft, _⟩ := mem_newMessageIds _ _ _ ht
    have hfresh := newMessageIds_syncOnce_fresh L s t ht
    -- the trunk t was already fresh with respect to the original message set
    have hanys : s.any (fun m => m.msgId == f.trunk) = false := by
      rw [List.any_eq_false]
      intro m hm hmt
      obtain ⟨m2, hm2, hid⟩ := msgId_mem_syncOnce L s m hm
      exact hfresh m2 hm2 (by rw [hid, ← hft]; simpa using hmt)
    have htids1 : t ∈ newMessageIds s L.found := by
      rw [← hft]
      exact newMessageIds_mem s L.found f hfmem hanys
    -- hence the run fetched the hash-t message and appended it
    have himS1 : fromIotaMessage im ∈ syncOnce L s := by
      unfold syncOnce sync_transactions
      exact List.mem_append_right _ (List.mem_map.mpr
        ⟨im, List.mem_filterMap.mpr ⟨t, htids1, hfind⟩, rfl⟩)
    exact hfresh _ himS1 (by rw [fromIotaMessage, hhash])

theorem broadcastStep_syncOnce_id (L : Ledger) (s : List Message) (m : Message)
    (hm : m ∈ syncOnce L s) :
    broadcastStep (newMessageIds (syncOnce L s) L.found) m = m := by
  have hcontains : (newMessageIds (syncOnce L s) L.found).contains m.msgId = false := by
    by_contra hc
    have hmem : m.msgId ∈ newMessageIds (syncOnce L s) L.found := by
      have := Bool.of_not_eq_false hc
      simpa using this
    exact newMessageIds_syncOnce_fresh L s m.msgId hmem m hm rfl
  rw [broadcastStep, hcontains, Bool.and_false, if_neg Bool.false_ne_true]

/-- C3 (amended): the second run of the transaction-sync reconciliation
over the same ledger state appends no messages and changes no identifiers
and no broadcasted flags; it is exactly one further pass of the
confirmed-flag update over the first run result.  In particular it can
still set the confirmed flag of a message appended by the first run, which
is the only way the second run result may differ from the first. -/
theorem syncOnce_twice_eq_confirm_pass (L : Ledger) (s : List Message) :
    syncOnce L (syncOnce L s) = (syncOnce L s).map (confirmStep L) := by
  conv_lhs => rw [syncOnce, sync_transactions]
  rw [getByHashes_syncOnce_nil, List.map_nil, List.append_nil]
  congr 1
  calc (syncOnce L s).map (broadcastStep (newMessageIds (syncOnce L s) L.found))
      = (syncOnce L s).map id :=
        List.map_congr_left (fun m hm => broadcastStep_syncOnce_id L s m hm)
    _ = syncOnce L s := List.map_id _

/-- Concrete ledger refuting idempotence of the reconciliation: the scan
finds one message whose trunk is 2, the ledger holds a message with hash
2, and the ledger reports id 2 as confirmed. -/
def c3Ledger : Ledger where
  found := [⟨1, 2⟩]
  msgs := [⟨2, 5⟩]
  conf := fun i => i == 2

/-- C3 (counterexample): starting from an empty account, the first
reconciliation run appends the fetched message with both flags false; the
second run, over the unchanged ledger state, sets that message confirmed,
so running the reconciliation twice does not produce the same `Message`
set as running it once. -/
theorem syncOnce_not_idempotent :
    syncOnce c3Ledger (syncOnce c3Ledger []) ≠ syncOnce c3Ledger [] := by
  decide

/-- Balance total of a list of addresses, folded exactly as
`select_inputs` folds it. -/
def sumBalance (addrs : List Address) : Nat :=
  addrs.foldl (fun acc a => acc + a.balance) 0

/-- Modelled from the spec: `Account::latest_address` is not part of this
tree; per the spec the remainder destination is the most recently
known address of the account, i.e. the last entry of the ordered address
list (absent for an empty account). -/
def latest_address (addrs : List Address) : Option Address :=
  addrs.getLast?

/-- Candidate addresses for input selection: every account address that
does not equal the transfer destination, where equality is the
address-value-only equality of `PartialEq for Address`. -/
def availableAddresses (accountAddrs : List Address) (recipient : Address) : List Address :=
  accountAddrs.filter (fun a => !(addressEq a recipient))

/-- Embedding of `SyncedAccount::select_inputs`: filter out the recipient,
delegate to the pluggable coin-selection strategy
(`input_selection::select_input`), and return the latest account address
as remainder exactly when the selected balance strictly exceeds the
threshold. -/
def select_inputs (strategy : Nat → List Address → Except String (List Address))
    (threshold : Nat) (accountAddrs : List Address) (recipient : Address) :
    Except String (List Address × Option Address) :=
  match strategy threshold (availableAddresses accountAddrs recipient) with
  | .error e => .error e
  | .ok addrs =>
    let remainder := if threshold < sumBalance addrs then latest_address accountAddrs else none
    .ok (addrs, remainder)

theorem sumBalance_pos_ne_nil (addrs : List Address) (threshold : Nat)
    (h : threshold < sumBalance addrs) : addrs ≠ [] := by
  intro hnil
  rw [hnil] at h
  exact Nat.not_lt_zero threshold h

/-- C5: whenever input selection succeeds with a strategy that selects
among the offered candidates, a remainder address is returned exactly when
the selected balance strictly exceeds the threshold; in that case it is
the latest known address of the account (and it is present), and when the
selected balance equals the threshold exactly no remainder is returned. -/
theorem select_inputs_remainder (strategy : Nat → List Address → Except String (List Address))
    (threshold : Nat) (accountAddrs : List Address) (recipient : Address)
    (hstrat : ∀ res, strategy threshold (availableAddresses accountAddrs recipient) =
      Except.ok res → ∀ a ∈ res, a ∈ availableAddresses accountAddrs recipient)
    (addrs : List Address) (rem : Option Address)
    (hok : select_inputs strategy threshold accountAddrs recipient = Except.ok (addrs, rem)) :
    (rem.isSome = true ↔ threshold < sumBalance addrs) ∧
    (threshold < sumBalance addrs → rem = latest_address accountAddrs ∧ rem.isSome = true) ∧
    (sumBalance addrs = threshold → rem = none) := by
  unfold select_inputs at hok
  cases hres : strategy threshold (availableAddresses accountAddrs recipient) with
  | error e => rw [hres] at hok; exact absurd hok (by simp)
  | ok res =>
    rw [hres] at hok
    obtain ⟨haddrs, hrem⟩ : res = addrs ∧
        (if threshold < sumBalance res then latest_address accountAddrs else none) = rem := by
      have := hok
      simp only [Except.ok.injEq, Prod.mk.injEq] at this
      exact this
    subst haddrs
    by_cases hlt : threshold < sumBalance res
    · rw [if_pos hlt] at hrem
      have hne : res ≠ [] := sumBalance_pos_ne_nil res threshold hlt
      have hsome : (latest_address accountAddrs).isSome = true := by
        cases res with
        | nil => exact absurd rfl hne
        | cons a l =>
          have hmem : a ∈ availableAddresses accountAddrs recipient :=
            hstrat _ hres a (List.mem_cons_self a l)
          have : a ∈ accountAddrs := (List.mem_filter.mp hmem).1
          rw [latest_address, List.getLast?_isSome]
          intro hnil
          rw [hnil] at this
          exact absurd this (List.not_mem_nil a)
      refine ⟨?_, fun _ => ⟨hrem.symm, hrem ▸ hsome⟩, fun heq => absurd hlt (by rw [heq]; exact Nat.lt_irrefl threshold)⟩
      constructor
      · intro _; exact hlt
      · intro _; rw [← hrem]; exact hsome
    · rw [if_neg hlt] at hrem
      refine ⟨?_, fun h => absurd h hlt, fun _ => hrem.symm⟩
      constructor
      · intro hs; rw [← hrem] at hs; exact absurd hs (by simp)
      · intro h; exact absurd h hlt

/-- Identity strategy used by the selection witness: it selects every
offered candidate. -/
def allStrategy : Nat → List Address → Except String (List Address) :=
  fun _ candidates => Except.ok candidates

theorem select_inputs_remainder_witness :
    (∀ res, allStrategy 50 (availableAddresses [⟨1, 100, 0⟩] ⟨9, 0, 0⟩) =
        Except.ok res → ∀ a ∈ res, a ∈ availableAddresses [⟨1, 100, 0⟩] ⟨9, 0, 0⟩) ∧
    select_inputs allStrategy 50 [⟨1, 100, 0⟩] ⟨9, 0, 0⟩ =
      Except.ok ([⟨1, 100, 0⟩], some ⟨1, 100, 0⟩) ∧
    ((some (⟨1, 100, 0⟩ : Address)).isSome = true ↔ 50 < sumBalance [⟨1, 100, 0⟩]) ∧
    (50 < sumBalance [⟨1, 100, 0⟩] →
      some (⟨1, 100, 0⟩ : Address) = latest_address [⟨1, 100, 0⟩] ∧
      (some (⟨1, 100, 0⟩ : Address)).isSome = true) ∧
    (sumBalance [⟨1, 100, 0⟩] = 50 → some (⟨1, 100, 0⟩ : Address) = none) :=
  ⟨fun res h a ha => by cases h; exact ha,
   rfl,
   select_inputs_remainder allStrategy 50 [⟨1, 100, 0⟩] ⟨9, 0, 0⟩
     (fun res h a ha => by cases h; exact ha) [⟨1, 100, 0⟩] (some ⟨1, 100, 0⟩) rfl⟩

/-- Unspent output fetched by `client.get_outputs()` for an input address:
the producing transaction, the output index, the address holding the
output and its amount. -/
structure Utxo where
  producer : Nat
  outputIndex : Nat
  address : Nat
  amount : Nat
deriving DecidableEq

/-- Subtraction `a - b` on `u64`: the difference when it does not
underflow, and a panic (debug-mode Rust overflow check) otherwise. -/
def u64Sub (a b : Nat) : Outcome String Nat :=
  if b ≤ a then .ok (a - b) else .panic

/-- Output-allocation loop of `SyncedAccount::transfer`, walking the
fetched outputs with the running sum `current_output_sum`.  Per output the
allocated amount is the full output amount unless
`current_output_sum + utxo.amount > value`, in which case the code
computes `value - utxo.amount`; the destination is the address of the
output itself unless the running sum equals `value` exactly, in which case the
remainder address is unwrapped (`expect`, a panic when absent); a zero
allocated amount is rejected by the `NonZeroU64` check.  The produced
list pairs each destination address with its allocated amount. -/
def buildOutputsLoop (value : Nat) (remainderAddress : Option Nat) :
    List Utxo → Nat → List (Nat × Nat) → Outcome String (List (Nat × Nat))
  | [], _, acc => .ok acc
  | utxo :: rest, currentOutputSum, acc =>
    let amountRes : Outcome String Nat :=
      if value < currentOutputSum + utxo.amount then u64Sub value utxo.amount
      else .ok utxo.amount
    match amountRes with
    | .panic => .panic
    | .err e => .err e
    | .ok utxoAmount =>
      let addrRes : Outcome String Nat :=
        if currentOutputSum = value then
          match remainderAddress with
          | some a => .ok a
          | none => .panic
        else .ok utxo.address
      match addrRes with
      | .panic => .panic
      | .err e => .err e
      | .ok utxoAddress =>
        if utxoAmount = 0 then .err "invalid amount"
        else
          buildOutputsLoop value remainderAddress rest (currentOutputSum + utxo.amount)
            (acc ++ [(utxoAddress, utxoAmount)])

/-- Embedding of the output-construction portion of
`SyncedAccount::transfer`: allocate amounts and destinations over the
fetched outputs starting from a zero running sum. -/
def buildOutputs (value : Nat) (remainderAddress : Option Nat) (utxos : List Utxo) :
    Outcome String (List (Nat × Nat)) :=
  buildOutputsLoop value remainderAddress utxos 0 []

/-- C2: transferring 100 with fetched outputs of 90 (on address 7) and 20
(on address 8) allocates 90 and then `value - utxo.amount = 100 - 20 = 80`
to the second output, so the total allocated is 170, strictly more than
the requested 100 (the remaining shortfall would have been 10), and both
destinations are the addresses of the outputs themselves, not the recipient
(which the allocation loop never consults). -/
theorem buildOutputs_overshoots :
    buildOutputs 100 none [⟨0, 0, 7, 90⟩, ⟨0, 1, 8, 20⟩] =
      Outcome.ok [(7, 90), (8, 80)] ∧ 100 < 90 + 80 := by
  constructor
  · rfl
  · decide

/-- Effectful calls made by `SyncedAccount::transfer`, in program order:
the storage read of the account, the network fetch of spendable outputs,
the network fetch of the two tips, the vault fetch of the account secret,
the network submission, the network fetch of the resulting messages, and
the storage write of the account snapshot. -/
inductive Event where
  | storageRead
  | netGetOutputs
  | netGetTips
  | vaultGet
  | netPost
  | netGetMessages
  | storageWrite
deriving DecidableEq

/-- Account state as read back from storage by `transfer`: only the
address list is consulted by the embedded code. -/
structure WAccount where
  addresses : List Address

/-- Collaborator oracles of `transfer`: the storage adapter, the ledger
client and the stronghold interface.  `buildTx` covers the transaction
building on the fetched stronghold account and the message building; the
infallible-on-`Nat` input constructors (`UTXOInput::new` with
`BIP32Path::from_str` of a constant) are pure and modelled as succeeding —
were they to fail, the failure would abort before any further effectful
call, exactly like an allocation error. -/
structure TransferEnv where
  getAccount : Outcome String WAccount
  getOutputs : List Nat → Outcome String (List Utxo)
  getTips : Outcome String (Nat × Nat)
  strongholdGet : Outcome String Unit
  buildTx : List (Nat × Nat) → Outcome String Nat
  postMessages : Nat → Outcome String (List Nat)
  getMessages : List Nat → Outcome String (List Message)

/-- Embedding of `SyncedAccount::transfer`: validate the amount, reload
the account, select inputs, fetch outputs, allocate, fetch tips, fetch the
stronghold account, build, submit, fetch the resulting messages and only
then write the snapshot.  The result is paired with the trace of
effectful calls actually made.  The Rust error string for the zero-amount
case contains an apostrophe, omitted here. -/
def transfer (env : TransferEnv) (strategy : Nat → List Address → Except String (List Address))
    (amount : Nat) (recipient : Address) : Outcome String Message × List Event :=
  if amount = 0 then (.err "amount cant be zero", [])
  else
    match env.getAccount with
    | .err e => (.err e, [.storageRead])
    | .panic => (.panic, [.storageRead])
    | .ok account =>
      match select_inputs strategy amount account.addresses recipient with
      | .error e => (.err e, [.storageRead])
      | .ok (inputAddresses, remainderAddress) =>
        match env.getOutputs (inputAddresses.map (fun a => a.addr)) with
        | .err e => (.err e, [.storageRead, .netGetOutputs])
        | .panic => (.panic, [.storageRead, .netGetOutputs])
        | .ok utxos =>
          match buildOutputs amount (remainderAddress.map (fun a => a.addr)) utxos with
          | .err e => (.err e, [.storageRead, .netGetOutputs])
          | .panic => (.panic, [.storageRead, .netGetOutputs])
          | .ok utxoOutputs =>
            match env.getTips with
            | .err e => (.err e, [.storageRead, .netGetOutputs, .netGetTips])
            | .panic => (.panic, [.storageRead, .netGetOutputs, .netGetTips])
            | .ok _tips =>
              match env.strongholdGet with
              | .err e => (.err e, [.storageRead, .netGetOutputs, .netGetTips, .vaultGet])
              | .panic => (.panic, [.storageRead, .netGetOutputs, .netGetTips, .vaultGet])
              | .ok _ =>
                match env.buildTx utxoOutputs with
                | .err e => (.err e, [.storageRead, .netGetOutputs, .netGetTips, .vaultGet])
                | .panic => (.panic, [.storageRead, .netGetOutputs, .netGetTips, .vaultGet])
                | .ok message =>
                  match env.postMessages message with
                  | .err e =>
                    (.err e, [.storageRead, .netGetOutputs, .netGetTips, .vaultGet, .netPost])
                  | .panic =>
                    (.panic, [.storageRead, .netGetOutputs, .netGetTips, .vaultGet, .netPost])
                  | .ok attached =>
                    match env.getMessages attached with
                    | .err e =>
                      (.err e, [.storageRead, .netGetOutputs, .netGetTips, .vaultGet,
                        .netPost, .netGetMessages])
                    | .panic =>
                      (.panic, [.storageRead, .netGetOutputs, .netGetTips, .vaultGet,
                        .netPost, .netGetMessages])
                    | .ok messages =>
                      match messages with
                      | [] =>
                        (.panic, [.storageRead, .netGetOutputs, .netGetTips, .vaultGet,
                          .netPost, .netGetMessages])
                      | m :: _ =>
                        (.ok m, [.storageRead, .netGetOutputs, .netGetTips, .vaultGet,
                          .netPost, .netGetMessages, .storageWrite])

/-- C6: the snapshot write happens exactly on the fully successful runs,
and a run that writes has also submitted (the submission call is in its
trace); every failing run — at input selection, output fetch, allocation,
tip fetch, vault fetch, build, submission or message fetch — produces no
storage write at all. -/
theorem transfer_persists_only_after_submit (env : TransferEnv)
    (strategy : Nat → List Address → Except String (List Address))
    (amount : Nat) (recipient : Address) :
    (Event.storageWrite ∈ (transfer env strategy amount recipient).2 ↔
      ∃ m, (transfer env strategy amount recipient).1 = Outcome.ok m) ∧
    (Event.storageWrite ∈ (transfer env strategy amount recipient).2 →
      Event.netPost ∈ (transfer env strategy amount recipient).2) := by
  unfold transfer
  repeat' split
  all_goals simp

/-- C8: a transfer of amount zero fails with the validation error before
any storage, network or vault call is made: the effect trace is empty. -/
theorem transfer_zero_amount_rejected_early (env : TransferEnv)
    (strategy : Nat → List Address → Except String (List Address)) (recipient : Address) :
    transfer env strategy 0 recipient = (Outcome.err "amount cant be zero", []) := by
  rfl

/-- Error type of `src/stronghold.rs` (payloads dropped). -/
inductive WalletError where
  | Timeout
  | InvalidAccountIdentifier
  | AccountIdMustBeString
  | StrongholdError
  | AccountNotFound
  | EmptySnapshot
  | UnexpectedResult
  | FailedToPerformAction
deriving DecidableEq

/-- Sum type over a string id (modelled as its byte list) and a numeric
account index. -/
inductive AccountIdentifier where
  | Id : List Nat → AccountIdentifier
  | Index : Nat → AccountIdentifier
deriving DecidableEq

/-- Embedding of `account_id_to_record_id`: the index variant is rejected
with `AccountIdMustBeString`; for the id variant the code slices
`as_bytes()[0..24]`, which panics when the id holds fewer than 24 bytes,
and then converts the 24-byte slice with `try_into`, which always succeeds
on a slice of exactly 24 bytes — so the `InvalidAccountIdentifier` error
that conversion failure would produce is unreachable. -/
def account_id_to_record_id : AccountIdentifier → Outcome WalletError (List Nat)
  | .Index _ => .err .AccountIdMustBeString
  | .Id bytes =>
    if 24 ≤ bytes.length then .ok (bytes.take 24) else .panic

/-- Record-hint code for `IOTA_WALLET_SEED`. -/
def seedHintCode : Nat := 0

/-- Record-hint code for `IOTA_WALLET_ACCOUNT`. -/
def accountHintCode : Nat := 1

/-- Stronghold-internal store oracle: `listIds` models the
`SHRequest::ListIds` response (record id and hint per record of a vault)
and `readData` models the `SHRequest::ReadData` response (absent when the
record does not exist, which surfaces as `AccountNotFound`). -/
structure StrongholdStore where
  listIds : Nat → List (List Nat × Nat)
  readData : Nat → List Nat → Option (List Nat)

/-- Mutable state of the `WalletStronghold` actor: the resolved seed vault
and accounts vault identifiers, both absent until a snapshot request
resolves them. -/
structure VaultState where
  seedVault : Option Nat
  accountsVault : Option Nat

/-- Record-operation requests of the vault actor protocol.  The
`LoadSnapshot` and `CreateSnapshot` bootstrap variants of the Rust enum
are not modelled: no claim concerns them. -/
inductive Request where
  | GetAccount : AccountIdentifier → Request
  | GetAccounts : Request
  | StoreAccount : AccountIdentifier → List Nat → Request
  | RemoveAccount : AccountIdentifier → Request

/-- Responses of the vault actor protocol for the record operations. -/
inductive StrongholdResponse where
  | Account : List Nat → StrongholdResponse
  | Accounts : List (List Nat) → StrongholdResponse
  | StoredAccount : StrongholdResponse
  | RemovedAccount : StrongholdResponse
deriving DecidableEq

/-- Read loop of the `GetAccounts` arm: every record of the accounts
vault tagged with the account hint is read; a missing record surfaces as
`AccountNotFound`. -/
def readAccounts (store : StrongholdStore) (vaultId : Nat) :
    List (List Nat × Nat) → Outcome WalletError (List (List Nat))
  | [] => .ok []
  | (recordId, hint) :: rest =>
    if hint = accountHintCode then
      match store.readData vaultId recordId with
      | none => .err .AccountNotFound
      | some record =>
        match readAccounts store vaultId rest with
        | .ok records => .ok (record :: records)
        | .err e => .err e
        | .panic => .panic
    else
      readAccounts store vaultId rest

/-- Embedding of `WalletStronghold::receive_message` for the record
operations.  `GetAccount` and `StoreAccount` evaluate
`self.accounts_vault.unwrap()` first (argument order), a panic when no
accounts vault is resolved; `RemoveAccount` translates the id first and
unwraps afterwards; only `GetAccounts` checks the vault with
`ok_or_else(EmptySnapshot)`.  `StoreAccount` and `RemoveAccount` send
their write to the stronghold client without awaiting a result, so they
answer without ever consulting whether the targeted record exists. -/
def receive_message (st : VaultState) (store : StrongholdStore) :
    Request → Outcome WalletError StrongholdResponse
  | .GetAccount accountId =>
    match st.accountsVault with
    | none => .panic
    | some vaultId =>
      match account_id_to_record_id accountId with
      | .err e => .err e
      | .panic => .panic
      | .ok recordId =>
        match store.readData vaultId recordId with
        | some record => .ok (.Account record)
        | none => .err .AccountNotFound
  | .GetAccounts =>
    match st.accountsVault with
    | none => .err .EmptySnapshot
    | some vaultId =>
      match readAccounts store vaultId (store.listIds vaultId) with
      | .ok records => .ok (.Accounts records)
      | .err e => .err e
      | .panic => .panic
  | .StoreAccount accountId _account =>
    match st.accountsVault with
    | none => .panic
    | some _vaultId =>
      match account_id_to_record_id accountId with
      | .err e => .err e
      | .panic => .panic
      | .ok _recordId => .ok .StoredAccount
  | .RemoveAccount accountId =>
    match account_id_to_record_id accountId with
    | .err e => .err e
    | .panic => .panic
    | .ok _recordId =>
      match st.accountsVault with
      | none => .panic
      | some _vaultId => .ok .RemovedAccount

/-- Embedding of the public `remove_account` entry point of
`src/stronghold.rs`: its body is `unimplemented!()`, an unconditional
panic, for every storage path and account id. -/
def remove_account (_storagePath : List Nat) (_accountId : AccountIdentifier) :
    Outcome WalletError Unit :=
  .panic

/-- Store with no vaults and no records. -/
def emptyStore : StrongholdStore where
  listIds := fun _ => []
  readData := fun _ _ => none

/-- Actor state before any snapshot has been loaded or created: no vault
identifiers are resolved. -/
def noVaultState : VaultState := ⟨none, none⟩

/-- Well-formed 24-byte account identifier used by the vault theorems. -/
def id24 : AccountIdentifier := .Id (List.range 24)

/-- C4: with no accounts vault resolved, `GetAccount`, `StoreAccount` and
`RemoveAccount` panic by unwrapping the absent vault identifier instead of
failing with `EmptySnapshot`; only `GetAccounts` performs the fail-fast
check the claim describes. -/
theorem vault_requests_panic_without_vault :
    receive_message noVaultState emptyStore (.GetAccount id24) = .panic ∧
    receive_message noVaultState emptyStore (.StoreAccount id24 [1]) = .panic ∧
    receive_message noVaultState emptyStore (.RemoveAccount id24) = .panic ∧
    receive_message noVaultState emptyStore .GetAccounts = .err .EmptySnapshot := by
  refine ⟨rfl, rfl, ?_, rfl⟩
  decide

/-- C9: the public `remove_account` entry point panics (its body is
`unimplemented!()`) instead of succeeding, for the empty path and a
well-formed id; at the actor protocol level, however, `RemoveAccount`
with a resolved accounts vault answers `RemovedAccount` without error for
every store — in particular for stores holding no record for the id
(idempotent delete). -/
theorem remove_account_unimplemented_actor_remove_total :
    remove_account [] id24 = Outcome.panic ∧
    ∀ (store : StrongholdStore) (v : Nat),
      receive_message ⟨some v, some v⟩ store (.RemoveAccount id24) =
        Outcome.ok StrongholdResponse.RemovedAccount := by
  refine ⟨rfl, fun store v => ?_⟩
  show (match account_id_to_record_id id24 with
    | .err e => Outcome.err e
    | .panic => Outcome.panic
    | .ok _recordId => Outcome.ok StrongholdResponse.RemovedAccount) =
      Outcome.ok StrongholdResponse.RemovedAccount
  have h24 : account_id_to_record_id id24 = .ok ((List.range 24).take 24) := by decide
  rw [h24]

/-- C10: translating an id-variant identifier to a vault record id is a
total deterministic function of the first 24 bytes whenever the id holds
at least 24 bytes, and panics via out-of-bounds slicing — never returning
`InvalidAccountIdentifier` — whenever it holds fewer. -/
theorem account_id_to_record_id_spec (bytes : List Nat) :
    (24 ≤ bytes.length →
      account_id_to_record_id (.Id bytes) = .ok (bytes.take 24)) ∧
    (bytes.length < 24 → account_id_to_record_id (.Id bytes) = .panic) ∧
    (∀ bytes2 : List Nat, bytes.take 24 = bytes2.take 24 →
      account_id_to_record_id (.Id bytes) = account_id_to_record_id (.Id bytes2)) := by
  refine ⟨fun h => ?_, fun h => ?_, fun bytes2 heq => ?_⟩
  · rw [account_id_to_record_id, if_pos h]
  · rw [account_id_to_record_id, if_neg (Nat.not_le_of_lt h)]
  · have hlen : (bytes.take 24).length = (bytes2.take 24).length := by rw [heq]
    rw [List.length_take, List.length_take] at hlen
    by_cases h : 24 ≤ bytes.length
    · have h2 : 24 ≤ bytes2.length := by
        rw [Nat.min_eq_left h] at hlen
        by_contra hc
        push_neg at hc
        rw [Nat.min_eq_right (Nat.le_of_lt hc)] at hlen
        omega
      rw [account_id_to_record_id, account_id_to_record_id, if_pos h, if_pos h2, heq]
    · push_neg at h
      have h2 : bytes2.length < 24 := by
        rw [Nat.min_eq_right (Nat.le_of_lt h)] at hlen
        by_contra hc
        push_neg at hc
        rw [Nat.min_eq_left hc] at hlen
        omega
      rw [account_id_to_record_id, account_id_to_record_id,
        if_neg (Nat.not_le_of_lt h), if_neg (Nat.not_le_of_lt h2)]

theorem account_id_to_record_id_spec_witness :
    (24 ≤ (List.range 24).length ∧
      account_id_to_record_id (.Id (List.range 24)) = .ok ((List.range 24).take 24)) ∧
    (([] : List Nat).length < 24 ∧ account_id_to_record_id (.Id []) = .panic) :=
  ⟨⟨by decide, (account_id_to_record_id_spec (List.range 24)).1 (by decide)⟩,
   ⟨by decide, (account_id_to_record_id_spec []).2.1 (by decide)⟩⟩
